import Mathlib

/-!
# Verification of the `routines` cooperative coroutine engine

Shallow embedding of `routines.c` (single-threaded cooperative coroutines
with synchronous message queues).  Pointers are modelled as `Option`-wrapped
identifiers; the intrusive doubly-linked coroutine queues are modelled as
Lean lists together with the per-coroutine back-pointer `queue`; the
message-slot pointer `coroutine->message` (which aims at the `sender` field
of a pending message entry) is modelled by the entry identifier `eid`.

Operations that switch control (`transfer`, the blocking half of `recv`,
`routines_spawn` up to entering the new task) are modelled as the state
transformation the C code performs up to (and including) the corresponding
`longjmp`/`call_on_stack`, including the deferred reclamation of the
`exited_coroutine` stack slot that runs at every wake-up.
-/

/-- An opaque pointer-sized payload (`void *`).  `none` is the C `NULL`. -/
abbrev Ptr := Option Nat

/-- Identifier of a coroutine record (`routines_coroutine_t *`). -/
abbrev CId := Nat

/-- Identifier of a message queue record (`routines_queue_t *`). -/
abbrev QId := Nat

/-- The enum `routines_state_t`.  `completed` is the first enumerator, hence the
value a zero-initialised coroutine record carries. -/
inductive RState where
  | completed
  | suspended
  | running
  | blockedSend
  | blockedRecv
  | blockedJoin
deriving DecidableEq, Repr

/-- A pending message entry (`message_t`).  The `next` pointer of the C
struct is represented by the position in the queue's `pending` list; `eid`
stands for the identity of the heap cell, which the sender's
`coroutine->message` back-pointer refers to. -/
structure MessageT where
  eid : Nat
  message : Ptr
  sender : Option CId
  reply_queue : Option QId
deriving DecidableEq, Repr

/-- A coroutine queue a coroutine can be linked into (`coroutine_queue_t`):
the global ready queue, a message queue's receiver wait queue, or a
coroutine's join queue. -/
inductive QRef where
  | readyQ : QRef
  | recvQ : QId → QRef
  | joinQ : CId → QRef
deriving DecidableEq, Repr

/-- The record `struct routines_coroutine`.  `message` models the back-pointer to the
`sender` field of a pending message entry (by that entry's `eid`);
`queue` models the back-pointer to the containing coroutine queue;
`stack_base` records whether the record currently owns a stack. -/
structure RoutinesCoroutine where
  state : RState := .completed
  join_queue : List CId := []
  message : Option Nat := none
  queue : Option QRef := none
  stack_base : Bool := false
deriving DecidableEq, Repr

/-- The record `struct routines_queue`: the pending-message FIFO and the receiver
wait queue. -/
structure RoutinesQueue where
  pending : List MessageT := []
  recv_queue : List CId := []
deriving DecidableEq, Repr

/-- The process-wide engine state: all coroutine records, all queue
records, the current coroutine, the ready queue, the deferred-exit slot,
the stack free-list size, and allocation counters for fresh identifiers. -/
structure Engine where
  cos : CId → RoutinesCoroutine
  queues : QId → RoutinesQueue
  current_coroutine : Option CId
  ready_queue : List CId
  exited_coroutine : Option CId
  unused_stacks : Nat
  next_cid : CId
  next_eid : Nat

/-- Update one coroutine record. -/
def updC (s : Engine) (c : CId) (f : RoutinesCoroutine → RoutinesCoroutine) :
    Engine :=
  { s with cos := Function.update s.cos c (f (s.cos c)) }

/-- Update one queue record. -/
def updQ (s : Engine) (q : QId) (f : RoutinesQueue → RoutinesQueue) :
    Engine :=
  { s with queues := Function.update s.queues q (f (s.queues q)) }

/-- Read the list of a coroutine queue. -/
def getQ (s : Engine) : QRef → List CId
  | .readyQ => s.ready_queue
  | .recvQ q => (s.queues q).recv_queue
  | .joinQ c => (s.cos c).join_queue

/-- Overwrite the list of a coroutine queue. -/
def setQ (s : Engine) (r : QRef) (l : List CId) : Engine :=
  match r with
  | .readyQ => { s with ready_queue := l }
  | .recvQ q => updQ s q (fun qu => { qu with recv_queue := l })
  | .joinQ c => updC s c (fun co => { co with join_queue := l })

/-- Function `coroutine_enqueue`: append at the tail and set the back-pointer. -/
def coroutine_enqueue (s : Engine) (r : QRef) (c : CId) : Engine :=
  let s1 := setQ s r (getQ s r ++ [c])
  updC s1 c (fun co => { co with queue := some r })

/-- Function `coroutine_dequeue`: unlink the head and clear its back-pointer. -/
def coroutine_dequeue (s : Engine) (r : QRef) : Option CId × Engine :=
  match getQ s r with
  | [] => (none, s)
  | h :: t =>
      (some h, updC (setQ s r t) h (fun co => { co with queue := none }))

/-- Function `coroutine_remove`: unlink a coroutine from whatever queue its
back-pointer names (O(1) in C thanks to the prev/next links). -/
def coroutine_remove (s : Engine) (c : CId) : Engine :=
  match (s.cos c).queue with
  | none => s
  | some r =>
      updC (setQ s r ((getQ s r).erase c)) c
        (fun co => { co with queue := none })

/-- The tail of `transfer` and of `routines_spawn`: every wake-up frees
the stack published in the `exited_coroutine` slot and clears the slot. -/
def drain_exited (s : Engine) : Engine :=
  match s.exited_coroutine with
  | none => s
  | some e =>
      let s1 := updC s e (fun co => { co with stack_base := false })
      { s1 with
          unused_stacks := s1.unused_stacks + 1
          exited_coroutine := none }

/-- First phase of `transfer`: the current coroutine (if any) takes the
given state and is enqueued in the given queue (if any). -/
def transfer_park (s : Engine) (qr : Option QRef) (st : RState) : Engine :=
  match s.current_coroutine with
  | none => s
  | some self =>
      let s' := updC s self (fun co => { co with state := st })
      match qr with
      | none => s'
      | some r => coroutine_enqueue s' r self

/-- Second phase of `transfer`: pick the coroutine to resume — the
explicit target if given, else the head of the ready queue (possibly
none, in which case the root context resumes). -/
def transfer_pick (s : Engine) (tgt : Option CId) : Option CId × Engine :=
  match tgt with
  | some c => (some c, s)
  | none => coroutine_dequeue s .readyQ

/-- Third phase of `transfer`: install the picked coroutine as current;
before the `longjmp` its state is set to `running` (the root context has
no state field). -/
def transfer_resume (s : Engine) (next : Option CId) : Engine :=
  let s2 := { s with current_coroutine := next }
  match next with
  | some c => updC s2 c (fun co => { co with state := .running })
  | none => s2

/-- Function `transfer(queue, state, coroutine)`: park the current coroutine (if
any) with the given state, optionally enqueue it, pick the target (the
explicit one, else the head of the ready queue, else the root context),
mark the target running and resume it, then drain the deferred-exit
slot at the wake-up. -/
def transfer (s : Engine) (qr : Option QRef) (st : RState)
    (tgt : Option CId) : Engine :=
  let p := transfer_pick (transfer_park s qr st) tgt
  drain_exited (transfer_resume p.2 p.1)

/-- Function `pending_messages`. -/
def pending_messages (s : Engine) (q : QId) : Bool :=
  !(s.queues q).pending.isEmpty

/-- The message entry built by `enqueue_message`. -/
def mkMessage (s : Engine) (m : Ptr) (sender : Option CId)
    (rq : Option QId) : MessageT :=
  { eid := s.next_eid, message := m, sender := sender, reply_queue := rq }

/-- Function `enqueue_message`: append the entry at the tail; if a (blocking)
sender is given, record the back-pointer to the entry's `sender` field
and transfer away in state `blockedSend` (with no queue parking — the
sender is held only through the message entry). -/
def enqueue_message (s : Engine) (q : QId) (m : Ptr) (sender : Option CId)
    (rq : Option QId) : Engine :=
  let e := mkMessage s m sender rq
  let s1 := updQ s q (fun qu => { qu with pending := qu.pending ++ [e] })
  let s2 := { s1 with next_eid := s1.next_eid + 1 }
  match sender with
  | none => s2
  | some c =>
      let s3 := updC s2 c (fun co => { co with message := some e.eid })
      transfer s3 none .blockedSend none

/-- Clearing the `sender` field of the entry a suspend's message-slot
pointer aims at (`*coroutine->message = NULL`). -/
def clear_sender (eid : Nat) (e : MessageT) : MessageT :=
  if e.eid = eid then { e with sender := none } else e

/-- First block of `routines_suspend`: if the target is parked as the
sender of a pending message entry, clear that entry's `sender` field
(through the back-pointer) and the target's message slot. -/
def suspend_clear_slot (s : Engine) (c : CId) : Engine :=
  match (s.cos c).message with
  | none => s
  | some eid =>
      let s' :=
        { s with
            queues := fun q =>
              { s.queues q with
                  pending := (s.queues q).pending.map (clear_sender eid) } }
      updC s' c (fun co => { co with message := none })

/-- Second block of `routines_suspend`: unlink from any coroutine queue. -/
def suspend_unlink (s : Engine) (c : CId) : Engine :=
  match (s.cos c).queue with
  | none => s
  | some _ => coroutine_remove s c

/-- Function `routines_suspend`: cancel a pending blocking send by clearing the
entry's `sender` field, unlink from any coroutine queue, mark the target
`suspended`, and transfer away if the target is the current coroutine. -/
def routines_suspend (s : Engine) (c : CId) : Engine :=
  let s2 := suspend_unlink (suspend_clear_slot s c) c
  let s3 := updC s2 c (fun co => { co with state := .suspended })
  if s3.current_coroutine = some c then transfer s3 none .suspended none
  else s3

/-- Function `routines_resume`: suspend (to unlink cleanly), mark running, push
onto the ready queue tail. -/
def routines_resume (s : Engine) (c : CId) : Engine :=
  let s1 := routines_suspend s c
  let s2 := updC s1 c (fun co => { co with state := .running })
  coroutine_enqueue s2 .readyQ c

/-- Function `dequeue_message`.  Returns the payload (`NULL` when the queue is
empty), the value stored through the `reply_queue` out-parameter
(`none` when the code performs no store at all), and the new state.
A non-null `sender` of the head entry is resumed. -/
def dequeue_message (s : Engine) (q : QId) :
    Ptr × Option (Option QId) × Engine :=
  match (s.queues q).pending with
  | [] => (none, none, s)
  | e :: _ =>
      let s1 :=
        match e.sender with
        | none => s
        | some c => routines_resume s c
      let s2 := updQ s1 q (fun qu => { qu with pending := qu.pending.tail })
      (e.message, some e.reply_queue, s2)

/-- Function `send`: if a receiver is parked, enqueue the entry with a null
`sender` and transfer directly to the dequeued receiver, parking the
caller on the ready queue in state `running`; otherwise just enqueue
(which blocks the caller iff `sender` is non-null). -/
def send (s : Engine) (q : QId) (m : Ptr) (sender : Option CId)
    (rq : Option QId) : Engine :=
  let p := coroutine_dequeue s (.recvQ q)
  match p.1 with
  | some srv =>
      let s2 := enqueue_message p.2 q m none rq
      transfer s2 (some .readyQ) .running (some srv)
  | none => enqueue_message p.2 q m sender rq

/-- The entry half of `recv`: park in the receiver wait queue (state
`blockedRecv`) when no message is pending. -/
def recv_enter (s : Engine) (q : QId) : Engine :=
  if pending_messages s q then s
  else transfer s (some (.recvQ q)) .blockedRecv none

/-- The tail of `recv`, executed by the receiving coroutine when it
runs: dequeue the head entry. -/
def recv_complete (s : Engine) (q : QId) : Ptr × Option (Option QId) × Engine :=
  dequeue_message s q

/-- Function `recv`, read sequentially from the receiving coroutine's point of
view (accurate as a state function when nothing runs in between the park
and the wake-up). -/
def recv (s : Engine) (q : QId) : Ptr × Option (Option QId) × Engine :=
  recv_complete (recv_enter s q) q

/-- Function `routines_send`: blocking send with the current coroutine as sender. -/
def routines_send (s : Engine) (q : QId) (m : Ptr) : Engine :=
  send s q m s.current_coroutine none

/-- Function `routines_signal`: non-blocking send (null sender). -/
def routines_signal (s : Engine) (q : QId) (m : Ptr) : Engine :=
  send s q m none none

/-- Function `routines_post`: non-blocking send carrying a reply queue. -/
def routines_post (s : Engine) (q : QId) (m : Ptr) (rq : Option QId) :
    Engine :=
  send s q m none rq

/-- Function `routines_wait`: blocking receive, payload only. -/
def routines_wait (s : Engine) (q : QId) : Ptr × Engine :=
  ((recv s q).1, (recv s q).2.2)

/-- Function `routines_read`: non-blocking poll. -/
def routines_read (s : Engine) (q : QId) : Ptr × Engine :=
  if pending_messages s q then ((recv s q).1, (recv s q).2.2)
  else (none, s)

/-- The send half of `routines_call`: `send(send_queue, message, NULL,
reply_queue)` — note the null sender. -/
def routines_call_send (s : Engine) (q : QId) (m : Ptr) (rq : QId) :
    Engine :=
  send s q m none (some rq)

/-- Function `routines_call` up to its suspension point: the (null-sender) send
followed by the entry half of the receive on the reply queue. -/
def routines_call_enter (s : Engine) (q : QId) (m : Ptr) (rq : QId) :
    Engine :=
  recv_enter (routines_call_send s q m rq) rq

/-- Function `routines_call`, read sequentially from the caller's point of view. -/
def routines_call (s : Engine) (q : QId) (m : Ptr) (rq : QId) :
    Ptr × Engine :=
  let s1 := routines_call_send s q m rq
  ((recv s1 rq).1, (recv s1 rq).2.2)

/-- Function `routines_yield`. -/
def routines_yield (s : Engine) : Engine :=
  transfer s (some .readyQ) .running none

/-- Function `routines_join`. -/
def routines_join (s : Engine) (c : CId) : Engine :=
  transfer s (some (.joinQ c)) .blockedJoin none

/-- Function `alloc_stack`: pop the free-list if it is non-empty, else allocate a
fresh region.  Either way the coroutine ends up owning a stack; the
free-list shrinks by one when non-empty, which truncated `Nat`
subtraction expresses directly. -/
def alloc_stack (s : Engine) : Engine :=
  { s with unused_stacks := s.unused_stacks - 1 }

/-- Function `routine_entry` up to invoking the task's entrypoint: enqueue the
(still-current) parent on the ready queue, then make the new coroutine
current. -/
def routine_entry_begin (s : Engine) (c : CId) : Engine :=
  let s1 :=
    match s.current_coroutine with
    | none => s
    | some p => coroutine_enqueue s .readyQ p
  { s1 with current_coroutine := some c }

/-- Function `routines_spawn` up to entering the new task on its own stack: the
record is allocated with designated initialisers for `entrypoint`, `arg`
and `stack_base` only, so `state` carries the zero value
`ROUTINES_COMPLETED`; the parent (if any) is enqueued on the ready queue
by `routines_spawn` itself, and then once more by `routine_entry`. -/
def routines_spawn (s : Engine) : CId × Engine :=
  let c := s.next_cid
  let s1 := alloc_stack { s with next_cid := c + 1 }
  let s2 := updC s1 c (fun _ =>
    { state := .completed, join_queue := [], message := none,
      queue := none, stack_base := true })
  let s3 :=
    match s2.current_coroutine with
    | none => s2
    | some p => coroutine_enqueue s2 .readyQ p
  (c, routine_entry_begin s3 c)

/-- Drain loop of `routines_queue_destroy` over pending messages,
with explicit fuel (each iteration drops exactly one entry). -/
def drain_pending : Nat → Engine → QId → Engine
  | 0, s, _ => s
  | n + 1, s, q =>
      if pending_messages s q then
        drain_pending n (dequeue_message s q).2.2 q
      else s

/-- Drain loop of `routines_queue_destroy` over parked receivers. -/
def drain_recvers : Nat → Engine → QId → Engine
  | 0, s, _ => s
  | n + 1, s, q =>
      match coroutine_dequeue s (.recvQ q) with
      | (none, s') => s'
      | (some srv, s') => drain_recvers n (routines_resume s' srv) q

/-- Function `routines_queue_destroy`: dequeue every pending message (resuming
recorded senders through `dequeue_message`), resume every parked
receiver, free the queue record. -/
def routines_queue_destroy (s : Engine) (q : QId) : Engine :=
  let s1 := drain_pending (s.queues q).pending.length s q
  let s2 := drain_recvers ((s1.queues q).recv_queue).length s1 q
  { s2 with queues := Function.update s2.queues q {} }

/-- Drain loop of `routines_destroy` over the join queue. -/
def drain_join : Nat → Engine → CId → Engine
  | 0, s, _ => s
  | n + 1, s, c =>
      match coroutine_dequeue s (.joinQ c) with
      | (none, s') => s'
      | (some j, s') => drain_join n (routines_resume s' j) c

/-- Function `routines_destroy`: suspend, resume all joiners, release the stack
(if still owned) and the record. -/
def routines_destroy (s : Engine) (c : CId) : Engine :=
  let s1 := routines_suspend s c
  let s2 := drain_join ((s1.cos c).join_queue).length s1 c
  let s3 :=
    if (s2.cos c).stack_base then
      { s2 with unused_stacks := s2.unused_stacks + 1 }
    else s2
  updC s3 c (fun _ => {})

/-- Function `routines_self`. -/
def routines_self (s : Engine) : Option CId :=
  s.current_coroutine

/-- Function `routines_state`. -/
def routines_state (s : Engine) (c : CId) : RState :=
  (s.cos c).state

/-- The empty engine: lazily-created process-wide state before any
spawn. -/
def engine0 : Engine :=
  { cos := fun _ => {}, queues := fun _ => {},
    current_coroutine := none, ready_queue := [],
    exited_coroutine := none, unused_stacks := 0,
    next_cid := 0, next_eid := 0 }

/-- A state with one coroutine (id 1) blocked in `blockedSend` as the
recorded sender of the single pending entry of queue 0. -/
def stateC1 : Engine :=
  { engine0 with
      cos := Function.update engine0.cos 1
        { state := .blockedSend, message := some 0 },
      queues := Function.update engine0.queues 0
        { pending := [⟨0, some 7, some 1, none⟩] },
      next_eid := 1, next_cid := 2 }

/-- A root-spawned coroutine (id 1) running alone with two empty queues
0 (the request queue) and 1 (the reply queue). -/
def stateC2 : Engine :=
  { engine0 with
      cos := Function.update engine0.cos 1 { state := .running },
      current_coroutine := some 1, next_cid := 2 }

/-- A single root-spawned coroutine (id 0) running, ready queue empty. -/
def stateC4 : Engine :=
  { engine0 with
      cos := Function.update engine0.cos 0 { state := .running },
      current_coroutine := some 0, next_cid := 1 }

/-- A coroutine (id 1) parked in `blockedRecv` on the empty queue 0;
the root context is running. -/
def stateC5 : Engine :=
  { engine0 with
      cos := Function.update engine0.cos 1
        { state := .blockedRecv, queue := some (.recvQ 0) },
      queues := Function.update engine0.queues 0 { recv_queue := [1] },
      next_cid := 2 }

/-- Coroutine 1 is current and running; coroutine 2 is parked in
`blockedRecv` on queue 0. -/
def stateC6 : Engine :=
  { engine0 with
      cos := Function.update (Function.update engine0.cos 1
          { state := .running }) 2
          { state := .blockedRecv, queue := some (.recvQ 0) },
      queues := Function.update engine0.queues 0 { recv_queue := [2] },
      current_coroutine := some 1, next_cid := 3 }

/-- A queue-history operation: an admission of a message entry (by
`send`/`signal`/`call`/`post`, all of which go through
`enqueue_message`) or a delivery attempt (by `wait`/`recv`/`read`, all
of which go through `dequeue_message`). -/
inductive MOp where
  | put : MessageT → MOp
  | take : MOp

/-- Run a history against the pending-message FIFO, collecting the
final pending list and the successfully delivered entries in order. -/
def runQueue : List MessageT → List MOp → List MessageT × List MessageT
  | pend, [] => (pend, [])
  | pend, .put e :: ops => runQueue (pend ++ [e]) ops
  | pend, .take :: ops =>
      match pend with
      | [] => runQueue [] ops
      | e :: t =>
          let p := runQueue t ops
          (p.1, e :: p.2)

/-- The entries admitted by a history, in admission order. -/
def putsOf : List MOp → List MessageT
  | [] => []
  | .put e :: ops => e :: putsOf ops
  | .take :: ops => putsOf ops

/-- Well-formedness of the blocked senders recorded in the pending
entries of queue `q`: entry identities are distinct, and each recorded
sender's message slot points back at its entry, is linked in no
coroutine queue (blocked senders are held only through the entry), is
not the current coroutine, and is not parked as a receiver of `q`. -/
def sender_wf (s : Engine) (q : QId) : Prop :=
  ((s.queues q).pending.map MessageT.eid).Nodup ∧
  ∀ e ∈ (s.queues q).pending, ∀ c, e.sender = some c →
    (s.cos c).message = some e.eid ∧ (s.cos c).queue = none ∧
    s.current_coroutine ≠ some c ∧ c ∉ (s.queues q).recv_queue

/-! ## Frame lemmas and verification theorems -/

lemma updC_id (s : Engine) (c : CId) (f : RoutinesCoroutine → RoutinesCoroutine)
    (hf : f (s.cos c) = s.cos c) : updC s c f = s := by
  simp [updC, hf, Function.update_eq_self]

lemma updC_queues (s : Engine) (c : CId) (f : RoutinesCoroutine → RoutinesCoroutine) :
    (updC s c f).queues = s.queues := rfl

lemma updC_cos_apply (s : Engine) (c : CId) (f : RoutinesCoroutine → RoutinesCoroutine)
    (x : CId) :
    (updC s c f).cos x = if x = c then f (s.cos c) else s.cos x := by
  simp [updC, Function.update_apply]

lemma setQ_pending (s : Engine) (r : QRef) (l : List CId) (q : QId) :
    ((setQ s r l).queues q).pending = (s.queues q).pending := by
  cases r <;> simp [setQ, updQ, updC, Function.update_apply] <;> split <;> simp_all

lemma setQ_cos_message (s : Engine) (r : QRef) (l : List CId) (x : CId) :
    ((setQ s r l).cos x).message = (s.cos x).message := by
  cases r <;> simp [setQ, updQ, updC, Function.update_apply] <;> split <;> simp_all

lemma setQ_cos_state (s : Engine) (r : QRef) (l : List CId) (x : CId) :
    ((setQ s r l).cos x).state = (s.cos x).state := by
  cases r <;> simp [setQ, updQ, updC, Function.update_apply] <;> split <;> simp_all

lemma setQ_current (s : Engine) (r : QRef) (l : List CId) :
    (setQ s r l).current_coroutine = s.current_coroutine := by
  cases r <;> rfl

lemma setQ_exited (s : Engine) (r : QRef) (l : List CId) :
    (setQ s r l).exited_coroutine = s.exited_coroutine := by
  cases r <;> rfl

lemma setQ_ready (s : Engine) (q : QId) (l : List CId) :
    (setQ s (.recvQ q) l).ready_queue = s.ready_queue := rfl

lemma coroutine_enqueue_pending (s : Engine) (r : QRef) (c : CId) (q : QId) :
    ((coroutine_enqueue s r c).queues q).pending = (s.queues q).pending := by
  simp [coroutine_enqueue, updC_queues, setQ_pending]

lemma coroutine_enqueue_message (s : Engine) (r : QRef) (c x : CId) :
    ((coroutine_enqueue s r c).cos x).message = (s.cos x).message := by
  simp only [coroutine_enqueue, updC_cos_apply]
  split <;> simp_all [setQ_cos_message]

lemma coroutine_enqueue_current (s : Engine) (r : QRef) (c : CId) :
    (coroutine_enqueue s r c).current_coroutine = s.current_coroutine := by
  simp [coroutine_enqueue, updC, setQ_current]

lemma coroutine_enqueue_exited (s : Engine) (r : QRef) (c : CId) :
    (coroutine_enqueue s r c).exited_coroutine = s.exited_coroutine := by
  simp [coroutine_enqueue, updC, setQ_exited]

lemma coroutine_enqueue_ready (s : Engine) (c : CId) :
    (coroutine_enqueue s .readyQ c).ready_queue = s.ready_queue ++ [c] := by
  simp [coroutine_enqueue, updC, setQ, getQ]

lemma coroutine_dequeue_pending (s : Engine) (r : QRef) (q : QId) :
    (((coroutine_dequeue s r).2).queues q).pending = (s.queues q).pending := by
  simp only [coroutine_dequeue]
  split <;> simp [updC_queues, setQ_pending]

lemma coroutine_dequeue_message (s : Engine) (r : QRef) (x : CId) :
    (((coroutine_dequeue s r).2).cos x).message = (s.cos x).message := by
  simp only [coroutine_dequeue]
  split
  · rfl
  · simp only [updC_cos_apply]
    split <;> simp_all [setQ_cos_message]

lemma coroutine_dequeue_current (s : Engine) (r : QRef) :
    ((coroutine_dequeue s r).2).current_coroutine = s.current_coroutine := by
  simp only [coroutine_dequeue]
  split
  · rfl
  · simp [updC, setQ_current]

lemma coroutine_remove_pending (s : Engine) (c : CId) (q : QId) :
    ((coroutine_remove s c).queues q).pending = (s.queues q).pending := by
  simp only [coroutine_remove]
  split
  · rfl
  · simp [updC_queues, setQ_pending]

lemma coroutine_remove_message (s : Engine) (c x : CId) :
    ((coroutine_remove s c).cos x).message = (s.cos x).message := by
  simp only [coroutine_remove]
  split
  · rfl
  · simp only [updC_cos_apply]
    split <;> simp_all [setQ_cos_message]

lemma coroutine_remove_current (s : Engine) (c : CId) :
    (coroutine_remove s c).current_coroutine = s.current_coroutine := by
  simp only [coroutine_remove]
  split
  · rfl
  · simp [updC, setQ_current]

lemma drain_exited_pending (s : Engine) (q : QId) :
    ((drain_exited s).queues q).pending = (s.queues q).pending := by
  simp only [drain_exited]
  split <;> rfl

lemma drain_exited_message (s : Engine) (x : CId) :
    ((drain_exited s).cos x).message = (s.cos x).message := by
  simp only [drain_exited]
  split
  · rfl
  · simp only [updC_cos_apply]; split <;> simp_all

lemma drain_exited_state (s : Engine) (x : CId) :
    ((drain_exited s).cos x).state = (s.cos x).state := by
  simp only [drain_exited]
  split
  · rfl
  · simp only [updC_cos_apply]; split <;> simp_all

lemma drain_exited_queue (s : Engine) (x : CId) :
    ((drain_exited s).cos x).queue = (s.cos x).queue := by
  simp only [drain_exited]
  split
  · rfl
  · simp only [updC_cos_apply]; split <;> simp_all

lemma drain_exited_current (s : Engine) :
    (drain_exited s).current_coroutine = s.current_coroutine := by
  simp only [drain_exited]
  split <;> rfl

lemma drain_exited_ready (s : Engine) :
    (drain_exited s).ready_queue = s.ready_queue := by
  simp only [drain_exited]
  split <;> rfl

lemma transfer_park_pending (s : Engine) (qr : Option QRef) (st : RState)
    (q : QId) :
    ((transfer_park s qr st).queues q).pending = (s.queues q).pending := by
  simp only [transfer_park]
  split
  · rfl
  · split <;> simp [updC_queues, coroutine_enqueue_pending]

lemma transfer_park_message (s : Engine) (qr : Option QRef) (st : RState)
    (x : CId) :
    ((transfer_park s qr st).cos x).message = (s.cos x).message := by
  simp only [transfer_park]
  split
  · rfl
  · split
    · simp only [updC_cos_apply]; split <;> simp_all
    · rw [coroutine_enqueue_message]
      simp only [updC_cos_apply]; split <;> simp_all

lemma transfer_pick_pending (s : Engine) (tgt : Option CId) (q : QId) :
    (((transfer_pick s tgt).2).queues q).pending = (s.queues q).pending := by
  simp only [transfer_pick]
  split
  · rfl
  · exact coroutine_dequeue_pending s _ q

lemma transfer_pick_message (s : Engine) (tgt : Option CId) (x : CId) :
    (((transfer_pick s tgt).2).cos x).message = (s.cos x).message := by
  simp only [transfer_pick]
  split
  · rfl
  · exact coroutine_dequeue_message s _ x

lemma transfer_resume_pending (s : Engine) (next : Option CId) (q : QId) :
    ((transfer_resume s next).queues q).pending = (s.queues q).pending := by
  simp only [transfer_resume]
  split <;> rfl

lemma transfer_resume_message (s : Engine) (next : Option CId) (x : CId) :
    ((transfer_resume s next).cos x).message = (s.cos x).message := by
  simp only [transfer_resume]
  split
  · simp only [updC_cos_apply]; split <;> simp_all
  · rfl

lemma transfer_resume_current (s : Engine) (next : Option CId) :
    (transfer_resume s next).current_coroutine = next := by
  simp only [transfer_resume]
  split <;> simp [updC]

lemma transfer_pending (s : Engine) (qr : Option QRef) (st : RState)
    (tgt : Option CId) (q : QId) :
    ((transfer s qr st tgt).queues q).pending = (s.queues q).pending := by
  simp [transfer, drain_exited_pending, transfer_resume_pending,
    transfer_pick_pending, transfer_park_pending]

lemma transfer_message (s : Engine) (qr : Option QRef) (st : RState)
    (tgt : Option CId) (x : CId) :
    ((transfer s qr st tgt).cos x).message = (s.cos x).message := by
  simp [transfer, drain_exited_message, transfer_resume_message,
    transfer_pick_message, transfer_park_message]

lemma suspend_clear_slot_cos (s : Engine) (c : CId) :
    ((suspend_clear_slot s c).cos c).message = none ∧
    ((suspend_clear_slot s c).cos c).queue = (s.cos c).queue ∧
    ((suspend_clear_slot s c).cos c).state = (s.cos c).state ∧
    (suspend_clear_slot s c).current_coroutine = s.current_coroutine ∧
    (suspend_clear_slot s c).ready_queue = s.ready_queue := by
  cases hm : (s.cos c).message <;>
    simp [suspend_clear_slot, hm, updC, Function.update_same]

lemma routines_suspend_of_ne (s : Engine) (h : CId)
    (hcur : s.current_coroutine ≠ some h) :
    (routines_suspend s h).current_coroutine = s.current_coroutine ∧
    ((routines_suspend s h).cos h).message = none ∧
    ((routines_suspend s h).cos h).queue = none ∧
    ((routines_suspend s h).cos h).state = .suspended := by
  obtain ⟨h1, h2, h3, h4, h5⟩ := suspend_clear_slot_cos s h
  set t := suspend_clear_slot s h with ht
  have hu : ((suspend_unlink t h).cos h).message = none ∧
      ((suspend_unlink t h).cos h).queue = none ∧
      ((suspend_unlink t h).cos h).state = (t.cos h).state ∧
      (suspend_unlink t h).current_coroutine = t.current_coroutine := by
    cases hq : (t.cos h).queue with
    | none => simp [suspend_unlink, hq, h1]
    | some r =>
        cases r with
        | readyQ =>
            simp [suspend_unlink, hq, coroutine_remove, updC, setQ, updQ, getQ,
              Function.update_same, h1]
        | recvQ q =>
            simp [suspend_unlink, hq, coroutine_remove, updC, setQ, updQ, getQ,
              Function.update_same, h1]
        | joinQ a =>
            rcases eq_or_ne a h with rfl | hne
            · simp [suspend_unlink, hq, coroutine_remove, updC, setQ, updQ, getQ,
                Function.update_same, h1]
            · simp [suspend_unlink, hq, coroutine_remove, updC, setQ, updQ, getQ,
                Function.update_same, Function.update_noteq hne.symm,
                Function.update_noteq, h1]
  obtain ⟨u1, u2, u3, u4⟩ := hu
  simp only [routines_suspend]
  rw [← ht]
  have hcc : (updC (suspend_unlink t h) h
      (fun co => { co with state := .suspended })).current_coroutine
      = s.current_coroutine := by
    simp [updC, u4, h4]
  rw [if_neg (by rw [hcc]; exact hcur)]
  refine ⟨hcc, ?_, ?_, ?_⟩ <;> simp [updC, Function.update_same, u1, u2]

lemma set_state_id (r : RoutinesCoroutine) (hr : r.state = .suspended) :
    { r with state := .suspended } = r := by
  cases r; simp_all

/-- C9.  Suspending a non-current coroutine twice is the same as
suspending it once: the second `routines_suspend` finds the message slot
and queue back-pointer already null, resets the state to the value it
already has, and performs no transfer. -/
theorem suspend_idempotent (s : Engine) (h : CId)
    (hcur : s.current_coroutine ≠ some h) :
    routines_suspend (routines_suspend s h) h = routines_suspend s h := by
  obtain ⟨c1, c2, c3, c4⟩ := routines_suspend_of_ne s h hcur
  set s1 := routines_suspend s h with hs1
  have e1 : suspend_clear_slot s1 h = s1 := by
    simp [suspend_clear_slot, c2]
  have e2 : suspend_unlink s1 h = s1 := by
    simp [suspend_unlink, e1, c3]
  have e3 : updC s1 h (fun co => { co with state := .suspended }) = s1 :=
    updC_id _ _ _ (set_state_id _ c4)
  simp only [routines_suspend, e1, e2, e3]
  rw [if_neg (by rw [c1]; exact hcur)]

/-- Witness for C9 at a concrete engine state. -/
theorem suspend_idempotent_w :
    routines_suspend (routines_suspend engine0 3) 3
      = routines_suspend engine0 3 :=
  suspend_idempotent engine0 3 (by decide)

/-- C10.  `routines_yield` from the root context with an empty ready
queue (and a drained exit slot, as at every point where root runs user
code) is a no-op: `transfer` parks nothing, dequeues nothing, and jumps
straight back to the root context. -/
theorem yield_root_empty_noop (s : Engine)
    (h1 : s.current_coroutine = none) (h2 : s.ready_queue = [])
    (h3 : s.exited_coroutine = none) :
    routines_yield s = s := by
  cases s
  simp_all [routines_yield, transfer, transfer_park, transfer_pick,
    transfer_resume, coroutine_dequeue, getQ, drain_exited]

/-- Witness for C10: the empty engine. -/
theorem yield_root_empty_noop_w : routines_yield engine0 = engine0 :=
  yield_root_empty_noop engine0 rfl rfl rfl

/-- Counterexample to C1 as stated: destroying queue 0 of `stateC1`
resumes the blocked sender (through `dequeue_message`), so it ends in
state `running` on the ready queue instead of remaining `blockedSend`. -/
theorem queue_destroy_orphans_senders_refuted :
    (stateC1.cos 1).state = .blockedSend ∧
    ((stateC1.queues 0).pending.map MessageT.sender) = [some 1] ∧
    ((routines_queue_destroy stateC1 0).cos 1).state = .running ∧
    ((routines_queue_destroy stateC1 0).cos 1).state ≠ .blockedSend ∧
    1 ∈ (routines_queue_destroy stateC1 0).ready_queue := by
  decide

/-- Counterexample to C2 as stated: after `routines_call` reaches its
suspension point, the caller is parked in `blockedRecv` on the reply
queue — never in `blockedSend` — and the entry admitted to the send
queue records no sender. -/
theorem call_blocking_send_refuted :
    ((routines_call_enter stateC2 0 (some 7) 1).cos 1).state
        = .blockedRecv ∧
    ((routines_call_enter stateC2 0 (some 7) 1).cos 1).state
        ≠ .blockedSend ∧
    ((routines_call_enter stateC2 0 (some 7) 1).queues 0).pending.map
        MessageT.sender = [none] ∧
    1 ∈ ((routines_call_enter stateC2 0 (some 7) 1).queues 1).recv_queue := by
  decide

/-- Counterexample to C3 as stated: the coroutine spawned from the root
context in the empty engine is not enqueued on the ready queue and its
state tag is the zero-initialised `completed`, not `running`; instead it
becomes the current coroutine. -/
theorem spawn_running_on_ready_refuted :
    ((routines_spawn engine0).2.cos (routines_spawn engine0).1).state
        = .completed ∧
    ((routines_spawn engine0).2.cos (routines_spawn engine0).1).state
        ≠ .running ∧
    (routines_spawn engine0).1 ∉ (routines_spawn engine0).2.ready_queue ∧
    (routines_spawn engine0).2.current_coroutine
        = some (routines_spawn engine0).1 := by
  decide

/-- C4 failing input: spawning from inside coroutine 0 enqueues the
parent on the ready queue twice (once in `routines_spawn`, once in
`routine_entry`), so coroutine 0 occupies two positions of one queue —
the queue-membership invariant is violated. -/
theorem spawn_from_coroutine_double_enqueues_parent :
    (routines_spawn stateC4).2.ready_queue = [0, 0] ∧
    ((routines_spawn stateC4).2.ready_queue.count 0) = 2 := by
  decide

/-- C5 failing input evaluated: root resumes the parked receiver and
yields to it; the receiver's `recv` tail (`dequeue_message` on the empty
queue) returns a null payload but performs no store at all through the
reply-queue out-parameter (second component `none`), so the caller's
reply-queue variable keeps its stale value instead of the documented
null. -/
theorem resume_spurious_wake_no_reply_store :
    (routines_yield (routines_resume stateC5 1)).current_coroutine
        = some 1 ∧
    (recv_complete (routines_yield (routines_resume stateC5 1)) 0).1
        = none ∧
    (recv_complete (routines_yield (routines_resume stateC5 1)) 0).2.1
        = none := by
  decide

/-- Counterexample to C6 as stated: `routines_signal` with a parked
receiver transfers control to that receiver — the caller is no longer
the current coroutine after the call. -/
theorem signal_no_switch_refuted :
    stateC6.current_coroutine = some 1 ∧
    (routines_signal stateC6 0 (some 9)).current_coroutine = some 2 ∧
    (routines_signal stateC6 0 (some 9)).current_coroutine
        ≠ stateC6.current_coroutine := by
  decide

lemma suspend_unlink_pending (s : Engine) (c : CId) (q : QId) :
    ((suspend_unlink s c).queues q).pending = (s.queues q).pending := by
  simp only [suspend_unlink]
  split
  · rfl
  · exact coroutine_remove_pending s c q

lemma routines_suspend_pending (s : Engine) (h : CId) (q : QId) :
    ((routines_suspend s h).queues q).pending
      = ((suspend_clear_slot s h).queues q).pending := by
  simp only [routines_suspend]
  split
  · rw [transfer_pending, updC_queues, suspend_unlink_pending]
  · rw [updC_queues, suspend_unlink_pending]

lemma suspend_unlink_message (s : Engine) (c x : CId) :
    ((suspend_unlink s c).cos x).message = (s.cos x).message := by
  simp only [suspend_unlink]
  split
  · rfl
  · exact coroutine_remove_message s c x

lemma routines_suspend_message (s : Engine) (h : CId) :
    ((routines_suspend s h).cos h).message = none := by
  have hc := (suspend_clear_slot_cos s h).1
  simp only [routines_suspend]
  split
  · rw [transfer_message]
    simp [updC_cos_apply, suspend_unlink_message, hc]
  · simp [updC_cos_apply, suspend_unlink_message, hc]

lemma suspend_clear_slot_pending_of_slot (s : Engine) (h : CId) (eid : Nat)
    (hm : (s.cos h).message = some eid) (q : QId) :
    ((suspend_clear_slot s h).queues q).pending
      = ((s.queues q).pending).map (clear_sender eid) := by
  simp [suspend_clear_slot, hm, updC]

/-- C8.  Suspending a coroutine parked as the sender of a pending
message entry leaves the entry in place with only its `sender` field
cleared (via `clear_sender` applied through the message-slot
back-pointer), and a later receive of a sender-less head entry delivers
the original payload while resuming nobody: the coroutine map, the
ready queue and the current coroutine are untouched. -/
theorem suspend_sender_preserves_entry :
    (∀ s h q eid, (s.cos h).message = some eid →
      ((routines_suspend s h).queues q).pending
        = ((s.queues q).pending).map (clear_sender eid)) ∧
    (∀ s h, ((routines_suspend s h).cos h).message = none) ∧
    (∀ eid e, (clear_sender eid e).message = e.message ∧
      (clear_sender eid e).reply_queue = e.reply_queue ∧
      (clear_sender eid e).eid = e.eid ∧
      (e.eid ≠ eid → clear_sender eid e = e) ∧
      (e.eid = eid → (clear_sender eid e).sender = none)) ∧
    (∀ s q e t, (s.queues q).pending = e :: t → e.sender = none →
      (dequeue_message s q).1 = e.message ∧
      (dequeue_message s q).2.2.cos = s.cos ∧
      (dequeue_message s q).2.2.ready_queue = s.ready_queue ∧
      (dequeue_message s q).2.2.current_coroutine = s.current_coroutine ∧
      ((dequeue_message s q).2.2.queues q).pending = t) := by
  refine ⟨?_, routines_suspend_message, ?_, ?_⟩
  · intro s h q eid hm
    rw [routines_suspend_pending, suspend_clear_slot_pending_of_slot s h eid hm]
  · intro eid e
    unfold clear_sender
    by_cases he : e.eid = eid <;> simp [he]
  · intro s q e t hpend hsend
    simp [dequeue_message, hpend, hsend, updQ, Function.update_same]

/-- Witness for C8 at concrete inputs: suspending the blocked sender of
`stateC1` clears the entry, and dequeueing the cleared entry delivers
payload 7 without resuming anyone. -/
theorem suspend_sender_preserves_entry_w :
    ((routines_suspend stateC1 1).queues 0).pending
        = [⟨0, some 7, none, none⟩] ∧
    (dequeue_message (routines_suspend stateC1 1) 0).1 = some 7 ∧
    (dequeue_message (routines_suspend stateC1 1) 0).2.2.ready_queue = [] := by
  have h1 := suspend_sender_preserves_entry.1 stateC1 1 0 0 (by decide)
  have hpend : ((routines_suspend stateC1 1).queues 0).pending
      = [⟨0, some 7, none, none⟩] := by
    rw [h1]; decide
  have h4 := suspend_sender_preserves_entry.2.2.2 (routines_suspend stateC1 1) 0
      ⟨0, some 7, none, none⟩ [] hpend rfl
  exact ⟨hpend, h4.1, by rw [h4.2.2.1]; decide⟩

lemma enqueue_message_pending (s : Engine) (q : QId) (m : Ptr)
    (sd : Option CId) (rq : Option QId) :
    ((enqueue_message s q m sd rq).queues q).pending
      = (s.queues q).pending ++ [mkMessage s m sd rq] := by
  simp only [enqueue_message]
  split
  · simp [updQ, Function.update_same]
  · rw [transfer_pending, updC_queues]
    simp [updQ, Function.update_same]

lemma routines_resume_pending (s : Engine) (c : CId) (q : QId) :
    ((routines_resume s c).queues q).pending
      = ((suspend_clear_slot s c).queues q).pending := by
  simp only [routines_resume]
  rw [coroutine_enqueue_pending, updC_queues, routines_suspend_pending]

lemma map_clear_sender_id (eid : Nat) (t : List MessageT)
    (h : ∀ x ∈ t, x.eid ≠ eid) : t.map (clear_sender eid) = t := by
  induction t with
  | nil => rfl
  | cons a t ih =>
      have ha : clear_sender eid a = a := by
        simp [clear_sender, h a (List.mem_cons_self a t)]
      simp [ha, ih (fun x hx => h x (List.mem_cons_of_mem a hx))]

lemma dequeue_message_fifo (s : Engine) (q : QId)
    (hn : ((s.queues q).pending.map MessageT.eid).Nodup)
    (hs : ∀ e, (s.queues q).pending.head? = some e →
      ∀ c, e.sender = some c → (s.cos c).message = some e.eid) :
    ((dequeue_message s q).2.2.queues q).pending = (s.queues q).pending.tail ∧
    (dequeue_message s q).1
      = ((s.queues q).pending.head?.bind MessageT.message) := by
  cases hp : (s.queues q).pending with
  | nil => simp [dequeue_message, hp]
  | cons e t =>
      cases hsend : e.sender with
      | none => simp [dequeue_message, hp, hsend, updQ, Function.update_same]
      | some c =>
          have hslot : (s.cos c).message = some e.eid :=
            hs e (by simp [hp]) c hsend
          have hmap : ((routines_resume s c).queues q).pending
              = clear_sender e.eid e :: t := by
            rw [routines_resume_pending,
              suspend_clear_slot_pending_of_slot s c e.eid hslot, hp]
            simp only [List.map_cons]
            rw [map_clear_sender_id]
            intro x hx hxe
            rw [hp] at hn
            simp only [List.map_cons, List.nodup_cons] at hn
            exact hn.1 (hxe ▸ List.mem_map_of_mem MessageT.eid hx)
          simp only [dequeue_message, hp, hsend]
          constructor
          · simp [updQ, Function.update_same, hmap]
          · simp

lemma runQueue_spec (ops : List MOp) : ∀ pend : List MessageT,
    (runQueue pend ops).2 ++ (runQueue pend ops).1 = pend ++ putsOf ops := by
  induction ops with
  | nil => intro pend; simp [runQueue, putsOf]
  | cons op ops ih =>
      intro pend
      cases op with
      | put e => simp [runQueue, putsOf, ih (pend ++ [e])]
      | take =>
          cases pend with
          | nil => simp [runQueue, putsOf, ih []]
          | cons e t => simp [runQueue, putsOf, ih t]

/-- C7.  Message FIFO: `enqueue_message` appends the admitted entry at
the tail of `pending`, `dequeue_message` removes exactly the head and
returns its payload, and therefore any history of admissions and
deliveries run from an empty queue delivers entries in exactly their
admission order (the delivered sequence followed by the leftover pending
entries is the admission sequence). -/
theorem message_fifo :
    (∀ s q m sd rq, ((enqueue_message s q m sd rq).queues q).pending
        = (s.queues q).pending ++ [mkMessage s m sd rq]) ∧
    (∀ s q, ((s.queues q).pending.map MessageT.eid).Nodup →
      (∀ e, (s.queues q).pending.head? = some e →
        ∀ c, e.sender = some c → (s.cos c).message = some e.eid) →
      ((dequeue_message s q).2.2.queues q).pending
          = (s.queues q).pending.tail ∧
      (dequeue_message s q).1
          = ((s.queues q).pending.head?.bind MessageT.message)) ∧
    (∀ ops, (runQueue [] ops).2 ++ (runQueue [] ops).1 = putsOf ops) :=
  ⟨enqueue_message_pending, dequeue_message_fifo,
    fun ops => runQueue_spec ops []⟩

/-- Witness for C7: a two-entry concrete queue delivers head first. -/
theorem message_fifo_w :
    ((enqueue_message engine0 0 (some 3) none none).queues 0).pending
        = [⟨0, some 3, none, none⟩] ∧
    ((dequeue_message stateC1 0).2.2.queues 0).pending = [] ∧
    (dequeue_message stateC1 0).1 = some 7 := by
  have h1 := message_fifo.1 engine0 0 (some 3) none none
  have hhd : (stateC1.queues 0).pending.head?
      = some ⟨0, some 7, some 1, none⟩ := by decide
  have h2 := message_fifo.2.1 stateC1 0 (by decide)
    (by
      intro e he c hc
      rw [hhd] at he
      obtain rfl : (⟨0, some 7, some 1, none⟩ : MessageT) = e :=
        Option.some_inj.mp he
      obtain rfl : (1 : CId) = c := Option.some_inj.mp hc
      decide)
  refine ⟨by rw [h1]; decide, by rw [h2.1]; decide, by rw [h2.2]; decide⟩

lemma alloc_stack_frame (s : Engine) :
    (alloc_stack s).cos = s.cos ∧
    (alloc_stack s).current_coroutine = s.current_coroutine ∧
    (alloc_stack s).ready_queue = s.ready_queue :=
  ⟨rfl, rfl, rfl⟩

/-- C3 (amended).  `routines_spawn` does not enqueue the new coroutine
on the ready queue and does not mark it running: the new record's state
carries the zero value `completed`, control transfers immediately to the
new coroutine (it becomes current before its entrypoint runs), and the
handle returned is the fresh identifier. -/
theorem spawn_runs_child_immediately (s : Engine)
    (h1 : s.next_cid ∉ s.ready_queue)
    (h2 : s.current_coroutine ≠ some s.next_cid) :
    (routines_spawn s).1 = s.next_cid ∧
    (routines_spawn s).2.current_coroutine = some s.next_cid ∧
    ((routines_spawn s).2.cos s.next_cid).state = .completed ∧
    s.next_cid ∉ (routines_spawn s).2.ready_queue := by
  cases hcu : s.current_coroutine with
  | none =>
      simp_all [routines_spawn, routine_entry_begin, alloc_stack, updC,
        coroutine_enqueue, setQ, getQ, Function.update_apply]
  | some p =>
      have hp : s.next_cid ≠ p := fun h => h2 (by rw [hcu, h])
      simp_all [routines_spawn, routine_entry_begin, alloc_stack, updC,
        coroutine_enqueue, setQ, getQ, Function.update_apply]

theorem spawn_runs_child_immediately_w :
    (routines_spawn stateC4).1 = 1 ∧
    (routines_spawn stateC4).2.current_coroutine = some 1 ∧
    ((routines_spawn stateC4).2.cos 1).state = .completed ∧
    1 ∉ (routines_spawn stateC4).2.ready_queue :=
  spawn_runs_child_immediately stateC4 (by decide) (by decide)

lemma routines_resume_current (s : Engine) (c : CId)
    (h : s.current_coroutine ≠ some c) :
    (routines_resume s c).current_coroutine = s.current_coroutine := by
  simp only [routines_resume]
  rw [coroutine_enqueue_current]
  show (updC _ _ _).current_coroutine = _
  simp only [updC]
  exact (routines_suspend_of_ne s c h).1

lemma enqueue_message_none_frame (s : Engine) (q : QId) (m : Ptr)
    (rq : Option QId) :
    (enqueue_message s q m none rq).current_coroutine
        = s.current_coroutine ∧
    (enqueue_message s q m none rq).cos = s.cos ∧
    (enqueue_message s q m none rq).ready_queue = s.ready_queue :=
  ⟨rfl, rfl, rfl⟩

lemma coroutine_dequeue_ready_recvQ (s : Engine) (q : QId) :
    ((coroutine_dequeue s (.recvQ q)).2).ready_queue = s.ready_queue := by
  simp only [coroutine_dequeue]
  split
  · rfl
  · simp [updC, setQ, updQ]

lemma coroutine_dequeue_state (s : Engine) (r : QRef) (x : CId) :
    (((coroutine_dequeue s r).2).cos x).state = (s.cos x).state := by
  simp only [coroutine_dequeue]
  split
  · rfl
  · simp only [updC_cos_apply]
    split <;> simp_all [setQ_cos_state]

lemma coroutine_enqueue_state (s : Engine) (r : QRef) (c x : CId) :
    ((coroutine_enqueue s r c).cos x).state = (s.cos x).state := by
  simp only [coroutine_enqueue, updC_cos_apply]
  split <;> simp_all [setQ_cos_state]

lemma transfer_resume_ready (s : Engine) (next : Option CId) :
    (transfer_resume s next).ready_queue = s.ready_queue := by
  simp only [transfer_resume]
  split <;> simp [updC]

lemma transfer_resume_state_running (s : Engine) (c : CId) (x : CId)
    (hx : (s.cos x).state = .running) :
    ((transfer_resume s (some c)).cos x).state = .running := by
  simp only [transfer_resume, updC_cos_apply]
  split <;> simp_all

lemma send_none_empty_frame (s : Engine) (q : QId) (m : Ptr)
    (rq : Option QId) (hrecv : (s.queues q).recv_queue = []) :
    (send s q m none rq).current_coroutine = s.current_coroutine ∧
    (send s q m none rq).cos = s.cos ∧
    (send s q m none rq).ready_queue = s.ready_queue := by
  simp [send, coroutine_dequeue, getQ, hrecv, enqueue_message, updQ]

lemma send_none_rendezvous (s : Engine) (q : QId) (m : Ptr)
    (rq : Option QId) (r : CId) (rest : List CId)
    (hrecv : (s.queues q).recv_queue = r :: rest) :
    (send s q m none rq).current_coroutine = some r ∧
    (∀ c, s.current_coroutine = some c →
      c ∈ (send s q m none rq).ready_queue ∧
      ((send s q m none rq).cos c).state = .running) := by
  simp only [send, coroutine_dequeue, getQ, hrecv]
  constructor
  · simp [transfer, transfer_pick, drain_exited_current,
      transfer_resume_current]
  · intro c hc
    have hc2 : (enqueue_message (updC (setQ s (.recvQ q) rest) r
        (fun co => { co with queue := none })) q m none rq).current_coroutine
        = some c := by
      have : (enqueue_message (updC (setQ s (.recvQ q) rest) r
          (fun co => { co with queue := none })) q m none rq).current_coroutine
          = s.current_coroutine := rfl
      rw [this, hc]
    set s2 := enqueue_message (updC (setQ s (.recvQ q) rest) r
        (fun co => { co with queue := none })) q m none rq with hs2
    have hpark : transfer_park s2 (some .readyQ) .running
        = coroutine_enqueue (updC s2 c (fun co => { co with state := .running }))
            .readyQ c := by
      simp [transfer_park, hc2]
    simp only [transfer, transfer_pick, hpark]
    constructor
    · rw [drain_exited_ready, transfer_resume_ready, coroutine_enqueue_ready]
      exact List.mem_append_right _ (List.mem_singleton.mpr rfl)
    · rw [drain_exited_state]
      apply transfer_resume_state_running
      rw [coroutine_enqueue_state]
      simp [updC_cos_apply]

lemma routines_read_current (s : Engine) (q : QId)
    (hs : ∀ e ∈ (s.queues q).pending, ∀ c, e.sender = some c →
      s.current_coroutine ≠ some c) :
    (routines_read s q).2.current_coroutine = s.current_coroutine := by
  simp only [routines_read]
  split
  · rename_i hp
    simp only [recv, recv_complete, recv_enter, hp, if_pos]
    cases hpl : (s.queues q).pending with
    | nil => simp [dequeue_message, hpl]
    | cons e t =>
        cases hsend : e.sender with
        | none => simp [dequeue_message, hpl, hsend, updQ]
        | some c =>
            simp only [dequeue_message, hpl, hsend]
            show (updQ (routines_resume s c) q _).current_coroutine = _
            simp only [updQ]
            exact routines_resume_current s c
              (hs e (hpl ▸ List.mem_cons_self e t) c hsend)
  · rfl

lemma routines_spawn_switches (s : Engine) :
    (routines_spawn s).2.current_coroutine = some (routines_spawn s).1 ∧
    (∀ p, s.current_coroutine = some p →
      p ∈ (routines_spawn s).2.ready_queue) := by
  constructor
  · cases hcu : s.current_coroutine <;>
      simp [routines_spawn, routine_entry_begin, alloc_stack, updC,
        coroutine_enqueue, setQ, getQ, hcu]
  · intro p hp
    simp [routines_spawn, routine_entry_begin, alloc_stack, updC,
      coroutine_enqueue, setQ, getQ, hp]

/-- C6 (amended).  The non-blocking sends do switch control when a
receiver is parked: `signal` and `post` (both `send` with a null
sender) transfer control to the dequeued receiver, parking the caller on
the ready queue in state `running`; with no parked receiver they return
without switching and touch neither the coroutine map nor the ready
queue.  `read` never switches.  `spawn` always switches to the new
coroutine, enqueueing the parent (if any) on the ready queue. -/
theorem suspension_points_amended :
    (∀ s q m rq, routines_signal s q m = send s q m none none ∧
      routines_post s q m rq = send s q m none rq) ∧
    (∀ s q m rq, (s.queues q).recv_queue = [] →
      (send s q m none rq).current_coroutine = s.current_coroutine ∧
      (send s q m none rq).cos = s.cos ∧
      (send s q m none rq).ready_queue = s.ready_queue) ∧
    (∀ s q m rq r rest, (s.queues q).recv_queue = r :: rest →
      (send s q m none rq).current_coroutine = some r ∧
      (∀ c, s.current_coroutine = some c →
        c ∈ (send s q m none rq).ready_queue ∧
        ((send s q m none rq).cos c).state = .running)) ∧
    (∀ s q, (∀ e ∈ (s.queues q).pending, ∀ c, e.sender = some c →
        s.current_coroutine ≠ some c) →
      (routines_read s q).2.current_coroutine = s.current_coroutine) ∧
    (∀ s, (routines_spawn s).2.current_coroutine
        = some (routines_spawn s).1 ∧
      (∀ p, s.current_coroutine = some p →
        p ∈ (routines_spawn s).2.ready_queue)) :=
  ⟨fun _ _ _ _ => ⟨rfl, rfl⟩,
    fun s q m rq h => send_none_empty_frame s q m rq h,
    fun s q m rq r rest h => send_none_rendezvous s q m rq r rest h,
    fun s q h => routines_read_current s q h,
    fun s => routines_spawn_switches s⟩

/-- Witness for C6 at concrete inputs: in `stateC6` a signal-style send
switches control to the parked receiver 2 and parks caller 1 on the
ready queue running; a read on the empty engine does not switch. -/
theorem suspension_points_amended_w :
    (send stateC6 0 (some 9) none none).current_coroutine = some 2 ∧
    1 ∈ (send stateC6 0 (some 9) none none).ready_queue ∧
    ((send stateC6 0 (some 9) none none).cos 1).state = .running ∧
    (routines_read engine0 0).2.current_coroutine = none := by
  have h3 := suspension_points_amended.2.2.1 stateC6 0 (some 9) none 2 []
    (by decide)
  have h4 := suspension_points_amended.2.2.2.1 engine0 0
    (fun e he => absurd he (List.not_mem_nil e))
  obtain ⟨a, b⟩ := h3
  have hb := b 1 rfl
  exact ⟨a, hb.1, hb.2, h4.trans rfl⟩

lemma send_none_pending (s : Engine) (q : QId) (m : Ptr) (rq : Option QId) :
    ((send s q m none rq).queues q).pending
      = (s.queues q).pending ++ [mkMessage s m none rq] := by
  simp only [send]
  cases hrecv : (s.queues q).recv_queue with
  | nil =>
      simp only [coroutine_dequeue, getQ, hrecv]
      exact enqueue_message_pending s q m none rq
  | cons r rest =>
      simp only [coroutine_dequeue, getQ, hrecv]
      rw [transfer_pending, enqueue_message_pending]
      have hp : ((updC (setQ s (.recvQ q) rest) r
          (fun co => { co with queue := none })).queues q).pending
          = (s.queues q).pending := by
        rw [updC_queues, setQ_pending]
      rw [hp]
      rfl

lemma coroutine_enqueue_recv (s : Engine) (q : QId) (c : CId) :
    ((coroutine_enqueue s (.recvQ q) c).queues q).recv_queue
      = (s.queues q).recv_queue ++ [c] := by
  simp [coroutine_enqueue, updC, setQ, updQ, getQ, Function.update_same]

lemma coroutine_enqueue_ready_recvQ (s : Engine) (q : QId) (c : CId) :
    (coroutine_enqueue s (.recvQ q) c).ready_queue = s.ready_queue := by
  simp [coroutine_enqueue, updC, setQ, updQ]

lemma coroutine_dequeue_queues_ready (s : Engine) :
    ((coroutine_dequeue s .readyQ).2).queues = s.queues := by
  simp only [coroutine_dequeue]
  split
  · rfl
  · rfl

lemma transfer_resume_queues (s : Engine) (next : Option CId) :
    (transfer_resume s next).queues = s.queues := by
  simp only [transfer_resume]
  split <;> rfl

lemma drain_exited_queues (s : Engine) :
    (drain_exited s).queues = s.queues := by
  simp only [drain_exited]
  split <;> rfl

lemma transfer_resume_state_of_ne (s : Engine) (next : Option CId) (x : CId)
    (h : next ≠ some x) :
    ((transfer_resume s next).cos x).state = (s.cos x).state := by
  cases next with
  | none => rfl
  | some c =>
      have : x ≠ c := fun he => h (by rw [he])
      simp [transfer_resume, updC_cos_apply, this]

lemma recv_enter_parks (s : Engine) (rq : QId) (c : CId)
    (hc : s.current_coroutine = some c)
    (hp : ¬ pending_messages s rq)
    (hr : c ∉ s.ready_queue) :
    ((recv_enter s rq).cos c).state = .blockedRecv ∧
    c ∈ ((recv_enter s rq).queues rq).recv_queue := by
  simp only [recv_enter, if_neg hp]
  have hpark : transfer_park s (some (.recvQ rq)) .blockedRecv
      = coroutine_enqueue (updC s c (fun co => { co with state := .blockedRecv }))
          (.recvQ rq) c := by
    simp [transfer_park, hc]
  set t := coroutine_enqueue (updC s c (fun co => { co with state := .blockedRecv }))
      (.recvQ rq) c with htdef
  have hst : (t.cos c).state = .blockedRecv := by
    rw [htdef, coroutine_enqueue_state]
    simp [updC_cos_apply]
  have hready : t.ready_queue = s.ready_queue := by
    rw [htdef, coroutine_enqueue_ready_recvQ]
    rfl
  have hrecv : (t.queues rq).recv_queue
      = (s.queues rq).recv_queue ++ [c] := by
    rw [htdef, coroutine_enqueue_recv]
    rfl
  simp only [transfer, transfer_pick, hpark, ← htdef]
  have hq : ((coroutine_dequeue t .readyQ).2).queues = t.queues :=
    coroutine_dequeue_queues_ready t
  constructor
  · rw [drain_exited_state]
    rw [transfer_resume_state_of_ne]
    · rw [coroutine_dequeue_state, hst]
    · cases hrl : t.ready_queue with
      | nil => simp [coroutine_dequeue, getQ, hrl]
      | cons h tl =>
          simp only [coroutine_dequeue, getQ, hrl]
          intro hcon
          apply hr
          rw [← hready, hrl]
          simp at hcon
          rw [hcon]
          exact List.mem_cons_self c tl
  · rw [drain_exited_queues, transfer_resume_queues, hq, hrecv]
    exact List.mem_append_right _ (List.mem_singleton.mpr rfl)

lemma dequeue_head_payload (s : Engine) (q : QId) (e : MessageT)
    (t : List MessageT) (hpend : (s.queues q).pending = e :: t) :
    (dequeue_message s q).1 = e.message := by
  cases hsend : e.sender <;> simp [dequeue_message, hpend, hsend]

/-- C2 (amended).  `routines_call` performs a NON-blocking send: the
entry admitted to `send_q` records no sender, and the caller — running
when it invokes `call` — is still in state `running` after the send
phase (parked on the ready queue if the send rendezvoused with a
receiver), never in `blockedSend`.  `call` then performs a blocking
receive on the reply queue: with no pending reply the caller parks in
`blockedRecv` on `reply_q`, and the completing `dequeue_message`
returns the head entry's payload — the reply. -/
theorem call_nonblocking_send_then_recv :
    (∀ s q m rq, ((routines_call_send s q m rq).queues q).pending
        = (s.queues q).pending ++ [mkMessage s m none (some rq)]) ∧
    (∀ s q m rq c, s.current_coroutine = some c →
      (s.cos c).state = .running →
      ((routines_call_send s q m rq).cos c).state = .running) ∧
    (∀ s rq c, s.current_coroutine = some c →
      ¬ pending_messages s rq → c ∉ s.ready_queue →
      ((recv_enter s rq).cos c).state = .blockedRecv ∧
      c ∈ ((recv_enter s rq).queues rq).recv_queue) ∧
    (∀ s q e t, (s.queues q).pending = e :: t →
      (recv_complete s q).1 = e.message) := by
  refine ⟨?_, ?_, recv_enter_parks, dequeue_head_payload⟩
  · intro s q m rq
    exact send_none_pending s q m (some rq)
  · intro s q m rq c hc hst
    show ((send s q m none (some rq)).cos c).state = .running
    cases hrecv : (s.queues q).recv_queue with
    | nil =>
        rw [(send_none_empty_frame s q m (some rq) hrecv).2.1, hst]
    | cons r rest =>
        exact ((send_none_rendezvous s q m (some rq) r rest hrecv).2 c hc).2

/-- Witness for C2 at concrete inputs: in `stateC2`, the send phase of
`call` admits a sender-less entry and leaves the caller running; the
receive phase parks it in `blockedRecv`; a pending reply entry's payload
is what `recv_complete` returns. -/
theorem call_nonblocking_send_then_recv_w :
    ((routines_call_send stateC2 0 (some 7) 1).queues 0).pending
        = [⟨0, some 7, none, some 1⟩] ∧
    ((routines_call_send stateC2 0 (some 7) 1).cos 1).state = .running ∧
    ((recv_enter stateC2 1).cos 1).state = .blockedRecv ∧
    (recv_complete stateC1 0).1 = some 7 := by
  have h1 := call_nonblocking_send_then_recv.1 stateC2 0 (some 7) 1
  have h2 := call_nonblocking_send_then_recv.2.1 stateC2 0 (some 7) 1 1
    rfl (by decide)
  have h3 := call_nonblocking_send_then_recv.2.2.1 stateC2 1 1 rfl
    (by decide) (by decide)
  have h4 := call_nonblocking_send_then_recv.2.2.2 stateC1 0
    ⟨0, some 7, some 1, none⟩ [] (by decide)
  exact ⟨by rw [h1]; decide, h2, h3.1, by rw [h4]⟩

lemma routines_suspend_eq_plain (s : Engine) (c : CId)
    (hq : (s.cos c).queue = none)
    (hcur : s.current_coroutine ≠ some c) :
    routines_suspend s c
      = updC (suspend_clear_slot s c) c
          (fun co => { co with state := .suspended }) := by
  have hu : suspend_unlink (suspend_clear_slot s c) c
      = suspend_clear_slot s c := by
    simp [suspend_unlink, (suspend_clear_slot_cos s c).2.1, hq]
  simp only [routines_suspend, hu]
  rw [if_neg]
  intro hcon
  apply hcur
  rw [← (suspend_clear_slot_cos s c).2.2.2.1]
  rw [← hcon]
  rfl

lemma updC_updC (s : Engine) (c : CId)
    (f g : RoutinesCoroutine → RoutinesCoroutine) :
    updC (updC s c f) c g = updC s c (fun co => g (f co)) := by
  simp [updC, Function.update_same, Function.update_idem]

/-- Characterisation of `routines_resume` on a coroutine that is in no
coroutine queue and is not current (the blocked-sender situation). -/
lemma routines_resume_plain (s : Engine) (c : CId)
    (hq : (s.cos c).queue = none)
    (hcur : s.current_coroutine ≠ some c) :
    (∀ x, x ≠ c → (routines_resume s c).cos x = (suspend_clear_slot s c).cos x) ∧
    ((routines_resume s c).cos c).state = .running ∧
    ((routines_resume s c).cos c).message = none ∧
    (routines_resume s c).ready_queue = s.ready_queue ++ [c] ∧
    (routines_resume s c).current_coroutine = s.current_coroutine ∧
    (∀ q', ((routines_resume s c).queues q').pending
        = ((suspend_clear_slot s c).queues q').pending) ∧
    (∀ q', ((routines_resume s c).queues q').recv_queue
        = (s.queues q').recv_queue) := by
  obtain ⟨m1, m2, m3, m4, m5⟩ := suspend_clear_slot_cos s c
  simp only [routines_resume, routines_suspend_eq_plain s c hq hcur, updC_updC]
  refine ⟨?_, ?_, ?_, ?_, ?_, ?_, ?_⟩
  · intro x hx
    simp only [coroutine_enqueue, setQ, getQ, updC_cos_apply, if_neg hx]
  · simp [coroutine_enqueue, setQ, getQ, updC_cos_apply]
  · simp [coroutine_enqueue, setQ, getQ, updC_cos_apply, m1]
  · simp [coroutine_enqueue, setQ, getQ, updC, m5]
  · simp [coroutine_enqueue, setQ, getQ, updC, m4]
  · intro q'
    simp [coroutine_enqueue, setQ, getQ, updC]
  · intro q'
    cases hm : (s.cos c).message with
    | none => simp [coroutine_enqueue, setQ, getQ, updC, suspend_clear_slot, hm]
    | some eid => simp [coroutine_enqueue, setQ, getQ, updC, suspend_clear_slot, hm]

lemma dequeue_step (s : Engine) (q : QId) (e : MessageT) (t : List MessageT)
    (hpend : (s.queues q).pending = e :: t)
    (hwf : sender_wf s q) :
    ((dequeue_message s q).2.2.queues q).pending = t ∧
    ((dequeue_message s q).2.2.queues q).recv_queue
        = (s.queues q).recv_queue ∧
    (dequeue_message s q).2.2.current_coroutine = s.current_coroutine ∧
    (∀ x, e.sender ≠ some x → (dequeue_message s q).2.2.cos x = s.cos x) ∧
    (∀ c, e.sender = some c →
      ((dequeue_message s q).2.2.cos c).state = .running ∧
      ((dequeue_message s q).2.2.cos c).message = none ∧
      (dequeue_message s q).2.2.ready_queue = s.ready_queue ++ [c]) ∧
    (e.sender = none → (dequeue_message s q).2.2.ready_queue = s.ready_queue) := by
  cases hsend : e.sender with
  | none =>
      simp [dequeue_message, hpend, hsend, updQ, Function.update_apply]
  | some c =>
      obtain ⟨hslot, hq, hcur, hrecvmem⟩ :=
        hwf.2 e (hpend ▸ List.mem_cons_self e t) c hsend
      obtain ⟨r1, r2, r3, r4, r5, r6, r7⟩ := routines_resume_plain s c hq hcur
      have hmap : ((routines_resume s c).queues q).pending
          = clear_sender e.eid e :: t := by
        rw [r6 q, suspend_clear_slot_pending_of_slot s c e.eid hslot, hpend]
        simp only [List.map_cons]
        rw [map_clear_sender_id]
        intro x hx hxe
        have hn := hwf.1
        rw [hpend] at hn
        simp only [List.map_cons, List.nodup_cons] at hn
        exact hn.1 (hxe ▸ List.mem_map_of_mem MessageT.eid hx)
      simp only [dequeue_message, hpend, hsend]
      refine ⟨?_, ?_, ?_, ?_, ?_, ?_⟩
      · simp [updQ, Function.update_same, hmap]
      · simp only [updQ, Function.update_same]
        exact r7 q
      · simp only [updQ]
        exact r5
      · intro x hx
        have hxc : x ≠ c := fun hh => hx (by rw [hh])
        show ((updQ (routines_resume s c) q _).cos x) = s.cos x
        simp only [updQ]
        rw [r1 x hxc]
        cases hm : (s.cos c).message with
        | none => simp [suspend_clear_slot, hm]
        | some eid => simp [suspend_clear_slot, hm, updC_cos_apply, hxc]
      · intro c' hc'
        obtain rfl : c = c' := Option.some_inj.mp (hsend ▸ hc')
        exact ⟨by simpa [updQ] using r2, by simpa [updQ] using r3,
          by simpa [updQ] using r4⟩
      · intro hnone
        exact Option.noConfusion hnone

lemma dequeue_step_wf (s : Engine) (q : QId) (e : MessageT)
    (t : List MessageT) (hpend : (s.queues q).pending = e :: t)
    (hwf : sender_wf s q) :
    sender_wf ((dequeue_message s q).2.2) q := by
  obtain ⟨A, B, C, D, _, _⟩ := dequeue_step s q e t hpend hwf
  have hnodup := hwf.1
  rw [hpend, List.map_cons, List.nodup_cons] at hnodup
  constructor
  · rw [A]; exact hnodup.2
  · intro e' he' c' hc'
    rw [A] at he'
    have he'orig : e' ∈ (s.queues q).pending :=
      hpend ▸ List.mem_cons_of_mem e he'
    obtain ⟨slot', hq', hcur', hrecv'⟩ := hwf.2 e' he'orig c' hc'
    have hne : e.sender ≠ some c' := by
      intro hes
      obtain ⟨slotc, _, _, _⟩ :=
        hwf.2 e (hpend ▸ List.mem_cons_self e t) c' hes
      have heq : e.eid = e'.eid :=
        Option.some_inj.mp (slotc.symm.trans slot')
      exact hnodup.1 (heq ▸ List.mem_map_of_mem MessageT.eid he')
    rw [D c' hne]
    exact ⟨slot', hq', by rw [C]; exact hcur', by rw [B]; exact hrecv'⟩

lemma drain_pending_spec : ∀ (n : Nat) (s : Engine) (q : QId),
    (s.queues q).pending.length = n → sender_wf s q →
    ((drain_pending n s q).queues q).pending = [] ∧
    ((drain_pending n s q).queues q).recv_queue = (s.queues q).recv_queue ∧
    (drain_pending n s q).current_coroutine = s.current_coroutine ∧
    (∀ x, (s.cos x).state = .running → (s.cos x).message = none →
      x ∈ s.ready_queue →
      ((drain_pending n s q).cos x).state = .running ∧
      x ∈ (drain_pending n s q).ready_queue) ∧
    (∀ e ∈ (s.queues q).pending, ∀ c, e.sender = some c →
      ((drain_pending n s q).cos c).state = .running ∧
      c ∈ (drain_pending n s q).ready_queue) := by
  intro n
  induction n with
  | zero =>
      intro s q hlen _
      have hp : (s.queues q).pending = [] := List.length_eq_zero.mp hlen
      simp only [drain_pending]
      exact ⟨hp, trivial, trivial, fun x h1 _ h3 => ⟨h1, h3⟩,
        fun e he => absurd he (hp ▸ List.not_mem_nil e)⟩
  | succ n ih =>
      intro s q hlen hwf
      cases hp : (s.queues q).pending with
      | nil => rw [hp] at hlen; exact absurd hlen (by simp)
      | cons e t =>
          have hpm : pending_messages s q = true := by
            simp [pending_messages, hp]
          obtain ⟨A, B, C, D, E, F⟩ := dequeue_step s q e t hp hwf
          have hwf' := dequeue_step_wf s q e t hp hwf
          have hlen' : (((dequeue_message s q).2.2).queues q).pending.length
              = n := by
            rw [A]
            rw [hp] at hlen
            exact Nat.succ_inj.mp hlen
          obtain ⟨ih1, ih2, ih3, ih4, ih5⟩ :=
            ih ((dequeue_message s q).2.2) q hlen' hwf'
          have hstep : drain_pending (n + 1) s q
              = drain_pending n ((dequeue_message s q).2.2) q := by
            simp [drain_pending, hpm]
          refine ⟨?_, ?_, ?_, ?_, ?_⟩
          · rw [hstep]; exact ih1
          · rw [hstep, ih2, B]
          · rw [hstep, ih3, C]
          · intro x h1 h2 h3
            rw [hstep]
            have hne : e.sender ≠ some x := by
              intro hes
              obtain ⟨slotc, _, _, _⟩ :=
                hwf.2 e (hp ▸ List.mem_cons_self e t) x hes
              rw [h2] at slotc
              exact Option.noConfusion slotc
            have hcos : ((dequeue_message s q).2.2.cos x) = s.cos x := D x hne
            have hready : x ∈ (dequeue_message s q).2.2.ready_queue := by
              cases hsend : e.sender with
              | none => rw [F hsend]; exact h3
              | some c => rw [(E c hsend).2.2]; exact List.mem_append_left _ h3
            exact ih4 x (hcos ▸ h1) (hcos ▸ h2) hready
          · intro e' he' c hc
            rw [hstep]
            rcases List.mem_cons.mp he' with rfl | he't
            · obtain ⟨E1, E2, E3⟩ := E c hc
              exact ih4 c E1 E2 (E3 ▸ List.mem_append_right _
                (List.mem_singleton.mpr rfl))
            · exact ih5 e' (A ▸ he't) c hc

lemma suspend_clear_slot_cos_other (s : Engine) (c x : CId) (hx : x ≠ c) :
    (suspend_clear_slot s c).cos x = s.cos x := by
  cases hm : (s.cos c).message with
  | none => simp [suspend_clear_slot, hm]
  | some eid => simp [suspend_clear_slot, hm, updC_cos_apply, hx]

lemma drain_recvers_spec : ∀ (n : Nat) (s : Engine) (q : QId),
    (∀ r ∈ (s.queues q).recv_queue, s.current_coroutine ≠ some r) →
    ∀ x, (s.cos x).state = .running → x ∈ s.ready_queue →
      x ∉ (s.queues q).recv_queue →
    ((drain_recvers n s q).cos x).state = .running ∧
    x ∈ (drain_recvers n s q).ready_queue := by
  intro n
  induction n with
  | zero => intro s q _ x h1 h2 _; exact ⟨h1, h2⟩
  | succ n ih =>
      intro s q hcur x h1 h2 h3
      cases hrl : (s.queues q).recv_queue with
      | nil =>
          have hdq : coroutine_dequeue s (.recvQ q) = (none, s) := by
            simp [coroutine_dequeue, getQ, hrl]
          simp only [drain_recvers, hdq]
          exact ⟨h1, h2⟩
      | cons r rest =>
          have hdq : coroutine_dequeue s (.recvQ q)
              = (some r, updC (setQ s (.recvQ q) rest) r
                  (fun co => { co with queue := none })) := by
            simp [coroutine_dequeue, getQ, hrl]
          simp only [drain_recvers, hdq]
          set s1 := updC (setQ s (.recvQ q) rest) r
              (fun co => { co with queue := none }) with hs1
          have hxr : x ≠ r := fun hh => h3 (hrl ▸ (hh ▸ List.mem_cons_self r rest))
          have hcos1 : ∀ y, y ≠ r → s1.cos y = s.cos y := by
            intro y hy
            rw [hs1]
            simp [updC_cos_apply, hy, setQ, updQ]
          have hq1 : (s1.cos r).queue = none := by
            rw [hs1]; simp [updC_cos_apply]
          have hcur1 : s1.current_coroutine = s.current_coroutine := by
            rw [hs1]; simp [updC, setQ_current]
          have hcurr : s1.current_coroutine ≠ some r := by
            rw [hcur1]
            exact hcur r (hrl ▸ List.mem_cons_self r rest)
          have hready1 : s1.ready_queue = s.ready_queue := by
            rw [hs1]; simp [updC, setQ, updQ]
          have hrecv1 : (s1.queues q).recv_queue = rest := by
            rw [hs1]; simp [updC_queues, setQ, updQ, Function.update_same]
          obtain ⟨r1, r2, r3, r4, r5, r6, r7⟩ := routines_resume_plain s1 r hq1 hcurr
          apply ih (routines_resume s1 r) q
          · intro r' hr'
            rw [r7 q, hrecv1] at hr'
            rw [r5, hcur1]
            exact hcur r' (hrl ▸ List.mem_cons_of_mem r hr')
          · rw [r1 x hxr, suspend_clear_slot_cos_other s1 r x hxr, hcos1 x hxr]
            exact h1
          · rw [r4, hready1]
            exact List.mem_append_left _ h2
          · rw [r7 q, hrecv1]
            intro hx
            exact h3 (hrl ▸ List.mem_cons_of_mem r hx)

/-- C1 (amended).  `routines_queue_destroy` discards every pending
entry through `dequeue_message`, which resumes each recorded blocked
sender: in a well-formed state, after the destroy every such sender is
in state `running` and sits on the ready queue — it does not remain in
`blockedSend`. -/
theorem queue_destroy_resumes_blocked_senders (s : Engine) (q : QId)
    (hwf : sender_wf s q)
    (hrc : ∀ r ∈ (s.queues q).recv_queue, s.current_coroutine ≠ some r) :
    ∀ e ∈ (s.queues q).pending, ∀ c, e.sender = some c →
      ((routines_queue_destroy s q).cos c).state = .running ∧
      c ∈ (routines_queue_destroy s q).ready_queue := by
  intro e he c hc
  obtain ⟨d1, d2, d3, d4, d5⟩ :=
    drain_pending_spec ((s.queues q).pending.length) s q rfl hwf
  obtain ⟨p1, p2⟩ := d5 e he c hc
  have hcnotrecv : c ∉ ((drain_pending ((s.queues q).pending.length) s q).queues
      q).recv_queue := by
    rw [d2]; exact (hwf.2 e he c hc).2.2.2
  have hcur1 : ∀ r ∈ ((drain_pending ((s.queues q).pending.length) s q).queues
      q).recv_queue,
      (drain_pending ((s.queues q).pending.length) s q).current_coroutine
        ≠ some r := by
    intro r hr
    rw [d3]
    rw [d2] at hr
    exact hrc r hr
  obtain ⟨f1, f2⟩ := drain_recvers_spec
    (((drain_pending ((s.queues q).pending.length) s q).queues q).recv_queue.length)
    (drain_pending ((s.queues q).pending.length) s q) q hcur1 c p1 p2 hcnotrecv
  exact ⟨f1, f2⟩

/-- Witness for C1 at the concrete state `stateC1`. -/
theorem queue_destroy_resumes_blocked_senders_w :
    ((routines_queue_destroy stateC1 0).cos 1).state = .running ∧
    1 ∈ (routines_queue_destroy stateC1 0).ready_queue := by
  have hwf : sender_wf stateC1 0 := by
    constructor
    · decide
    · intro e he c hc
      obtain rfl : (⟨0, some 7, some 1, none⟩ : MessageT) = e := by
        have hl : (stateC1.queues 0).pending
            = [⟨0, some 7, some 1, none⟩] := by decide
        rw [hl] at he
        exact (List.mem_singleton.mp he).symm
      obtain rfl : (1 : CId) = c := Option.some_inj.mp hc
      exact ⟨by decide, by decide, by decide, by decide⟩
  exact queue_destroy_resumes_blocked_senders stateC1 0 hwf
    (fun r hr => absurd hr (List.not_mem_nil r))
    ⟨0, some 7, some 1, none⟩ (by decide) 1 rfl
